import Mathlib

/-!
NameAnimation: verification of the font-fit solver, grid partitioner,
keyframe generator and assemble-animation lifecycle.

Shallow embedding of the TypeScript sources (`Tools.ts`,
`TextAssembleAnimation.ts`).  Browser facilities that the code merely
queries — the canvas `measureText` surface, `getComputedStyle`, the
viewport — are modelled as explicit oracles passed to the embedded
functions; everything the code computes from them is translated
statement by statement.

Numbers are embedded as `ℚ` (the JS doubles in this program hold exact
small decimal values), JS `undefined` as `Option.none`, and the one
unbounded `while` loop as a fuel-indexed recursion whose `none` result
marks fuel exhaustion: a `some` result is therefore also a proof that
the concrete run of the loop terminates.
-/

namespace core

/-- `Vec2.ts`: 2D vector with `x` and `y`. -/
structure Vec2 where
  x : ℚ
  y : ℚ
deriving DecidableEq

/-- Embedding of `String.prototype.split(" ")` (single-space separator):
worker on character lists.  `acc` is the current token accumulated in
reverse. -/
def splitSpaceAux : List Char → List Char → List (List Char)
  | [], acc => [acc.reverse]
  | c :: cs, acc =>
      if c = ' ' then acc.reverse :: splitSpaceAux cs []
      else splitSpaceAux cs (c :: acc)

/-- Embedding of `cssFont.split(" ")` as used in `Tools.ts`. -/
def splitSpace (s : String) : List String :=
  (splitSpaceAux s.data []).map String.mk

/-- Embedding of `Array.prototype.join(" ")`. -/
def joinSpace : List String → String
  | [] => ""
  | [s] => s
  | s :: s' :: rest => s ++ " " ++ joinSpace (s' :: rest)

/-- The canvas measurement surface (`CANVAS.getContext("2d")` +
`measureText`), as an oracle: `width text font` is `metrics.width`,
`actualHeight text font` is
`actualBoundingBoxAscent + actualBoundingBoxDescent`, and
`fontHeight font` is `fontBoundingBoxAscent + fontBoundingBoxDescent`
of the reference glyph `"A"` (which depends only on the font). -/
structure TextMeasure where
  width : String → String → ℚ
  actualHeight : String → String → ℚ
  fontHeight : String → ℚ

/-- `Tools.ts` `getTextWidth(text, font)`. -/
def getTextWidth (m : TextMeasure) (text font : String) : ℚ :=
  m.width text font

/-- `Tools.ts` `getTextHeight(text, font)`:
`actualBoundingBoxAscent + actualBoundingBoxDescent`. -/
def getTextHeight (m : TextMeasure) (text font : String) : ℚ :=
  m.actualHeight text font

/-- `Tools.ts` `getFontHeight(font)`: measures the fixed glyph `"A"`,
`fontBoundingBoxAscent + fontBoundingBoxDescent`. -/
def getFontHeight (m : TextMeasure) (font : String) : ℚ :=
  m.fontHeight font

/-- `Tools.ts` `getCSSFontSize(cssFont)`: `cssFont.split(" ")[1]` —
`none` models the JS `undefined` read past the end of the array. -/
def getCSSFontSize (cssFont : String) : Option String :=
  (splitSpace cssFont)[1]?

/-- `Tools.ts` `setCSSFontSize(cssFont, cssFontSize)`:
`arr = cssFont.split(" "); arr[1] = cssFontSize; arr.join(" ")`.
A JS assignment to index 1 of a shorter array extends it, hence the
second branch. -/
def setCSSFontSize (cssFont cssFontSize : String) : String :=
  let cssFontArr := splitSpace cssFont
  let cssFontArr' :=
    if 2 ≤ cssFontArr.length then cssFontArr.set 1 cssFontSize
    else cssFontArr ++ [cssFontSize]
  joinSpace cssFontArr'

/-- `Tools.ts` `cmpCSSFont(a, b)`: compares pixel counts of the string
`"A"` under both fonts, `Math.floor`-ing each measurement. -/
def cmpCSSFont (m : TextMeasure) (a b : String) : ℤ :=
  let text := "A"
  let aPixelCount := ⌊getTextWidth m text a⌋ * ⌊getTextHeight m text a⌋
  let bPixelCount := ⌊getTextWidth m text b⌋ * ⌊getTextHeight m text b⌋
  if aPixelCount > bPixelCount then -1
  else if bPixelCount > aPixelCount then 1
  else 0

/-- JS `Math.trunc`-style truncation on `ℚ` (used by the `%` operator,
which truncates toward zero). -/
def jsTrunc (q : ℚ) : ℤ :=
  if q < 0 then ⌈q⌉ else ⌊q⌋

/-- The JS `%` remainder operator on numbers: `a - b * trunc (a / b)`. -/
def jsMod (a b : ℚ) : ℚ :=
  a - b * jsTrunc (a / b)

/-- `Tools.ts` `random(min, max)`:
`min = Math.ceil(min); max = Math.floor(max);
 return Math.floor(Math.random() * (max - min + 1) + min)`.
The `Math.random()` draw is the explicit argument `r`. -/
def random (min max r : ℚ) : ℤ :=
  let min' : ℤ := ⌈min⌉
  let max' : ℤ := ⌊max⌋
  ⌊r * ((max' : ℚ) - (min' : ℚ) + 1) + (min' : ℚ)⌋

/-- The `while` loop of `clampFontSizeToScreenPadding` (`Tools.ts`
step [3]), fuel-indexed; `none` = fuel exhausted.  `cur` is
`currentFontSize_inRem`, `next` is `nextTextSize`.  On loop exit the
source returns `currentFontSize_inRem + "rem"`. -/
def clampLoop (m : TextMeasure) (text font : String) (avail : Vec2) :
    ℕ → ℕ → Vec2 → Option (Option String)
  | 0, _, _ => none
  | fuel + 1, cur, next =>
      if next.x < avail.x ∧ next.y < avail.y then
        let cur' := cur + 1
        let newFont := setCSSFontSize font (toString cur' ++ "rem")
        clampLoop m text font avail fuel cur'
          ⟨getTextWidth m text newFont, getFontHeight m newFont⟩
      else
        some (some (toString cur ++ "rem"))

/-- `Tools.ts` `clampFontSizeToScreenPadding(text, font,
minScreenPadding_inPC)`.  `windowSize` is the
`document.documentElement.clientWidth/Height` pair.  The outer `Option`
is the fuel of the embedded search loop; the inner `Option String` is
the JS return value (`undefined` only if `font` has fewer than two
space-separated tokens on the early-return path). -/
def clampFontSizeToScreenPadding (m : TextMeasure) (windowSize : Vec2)
    (text font : String) (minScreenPadding_inPC : ℚ) (fuel : ℕ) :
    Option (Option String) :=
  let windowSize_pvalue := (100 - minScreenPadding_inPC) / 100
  let availableWindowSize : Vec2 :=
    ⟨windowSize.x * windowSize_pvalue, windowSize.y * windowSize_pvalue⟩
  if getTextWidth m text font ≤ availableWindowSize.x ∧
      getFontHeight m font ≤ availableWindowSize.y then
    some (getCSSFontSize font)
  else
    clampLoop m text font availableWindowSize fuel 0 ⟨0, 0⟩

/-- One tile of the partitioned text box as computed by
`TextAssembleAnimation.#createCSSTextParts`: the `clip-path` rectangle's
top-left corner (`partPos`) and extent (`partSize`). -/
structure CellRegion where
  pos : Vec2
  size : Vec2
deriving DecidableEq

/-- The randomized start pose of one cell's `@keyframes` rule, as drawn
in `TextAssembleAnimation.#createCSSKeyframes` (source variable names
kept, including `deph`). -/
structure CellKeyframe where
  rotateX : ℤ
  rotateY : ℤ
  rotateZ : ℤ
  deph : ℤ
deriving DecidableEq

/-- The configuration record handed to `TextAssembleAnimation.init`. -/
structure AnimConfig where
  text : String
  color : String
  cssFontSize : String
  minScreenPadding_inPC : ℚ
  textPartCount : ℤ
  duration_inS : ℚ
  startDelay_inS : ℚ
deriving DecidableEq

/-- The observable DOM state owned by one `TextAssembleAnimation`:
the class list of each part `<div class="text">`, the inline `opacity`
of the ghost text div (`#htmlTextDiv`), and the container's inline
`font-size` (`none` = never assigned). -/
structure AnimState where
  parts : List (List String)
  ghostOpacity : String
  fontSize : Option String
deriving DecidableEq

/-- `DOMTokenList.add`: appends the class unless already present. -/
def classListAdd (l : List String) (c : String) : List String :=
  if c ∈ l then l else l ++ [c]

/-- `DOMTokenList.remove`: drops the class. -/
def classListRemove (l : List String) (c : String) : List String :=
  l.filter (· ≠ c)

/-- `TextAssembleAnimation.#createHTML`: creates `textPartCount` text
divs with classes `["text", "hide"]` plus the ghost div with inline
`opacity = "1"`.  A non-positive `textPartCount` makes the `for` loop
run zero times (`Int.toNat`). -/
def TextAssembleAnimation.createHTML (cfg : AnimConfig) : AnimState :=
  { parts := List.replicate cfg.textPartCount.toNat ["text", "hide"]
    ghostOpacity := "1"
    fontSize := none }

/-- `TextAssembleAnimation.#resize`.  Sets the container `font-size`
back to the original, reads the computed font of a child
(`getHTMLElementFont`, modelled by the oracle `efont` applied to the
just-set size), solves the fit, and applies the new size only when
`cmpCSSFont` sees a difference.  `Array.prototype.join` renders a JS
`undefined` element as the empty string, hence `jsSize.getD ""`. -/
def TextAssembleAnimation.resize (m : TextMeasure) (vw : Vec2)
    (efont : String → String) (cfg : AnimConfig) (fuel : ℕ)
    (s : AnimState) : Option AnimState :=
  let s1 : AnimState := { s with fontSize := some cfg.cssFontSize }
  let cssFont := efont cfg.cssFontSize
  match clampFontSizeToScreenPadding m vw cfg.text cssFont
      cfg.minScreenPadding_inPC fuel with
  | none => none
  | some jsSize =>
      let optimalCSSFont := setCSSFontSize cssFont (jsSize.getD "")
      if cmpCSSFont m cssFont optimalCSSFont ≠ 0 then
        some { s1 with fontSize := getCSSFontSize optimalCSSFont }
      else
        some s1

/-- `TextAssembleAnimation.init`: stores the configuration, builds the
HTML (`#createHTML`) and immediately resizes (`#resize`).  The source
performs no validation whatsoever and has no `throw` on this path, so
the only failure mode of the embedding is fuel exhaustion of the fit
search. -/
def TextAssembleAnimation.init (m : TextMeasure) (vw : Vec2)
    (efont : String → String) (cfg : AnimConfig) (fuel : ℕ) :
    Option AnimState :=
  TextAssembleAnimation.resize m vw efont cfg fuel
    (TextAssembleAnimation.createHTML cfg)

/-- The per-part body of the `play()` loop: restart the animation class
and unhide the part. -/
def TextAssembleAnimation.playPart (l : List String) : List String :=
  let l1 :=
    if "textAssembleAnimation" ∈ l then
      classListRemove l "textAssembleAnimation"
    else l
  let l2 := classListAdd l1 "textAssembleAnimation"
  if "hide" ∈ l2 then classListRemove l2 "hide" else l2

/-- `TextAssembleAnimation.play()` part [1]: animate every part, hide
the ghost (`opacity = "0"`), and schedule the settle callback after
`(startDelay_inS + duration_inS) * 1000` milliseconds (the returned
delay). -/
def TextAssembleAnimation.play (startDelay_inS duration_inS : ℚ)
    (s : AnimState) : AnimState × ℚ :=
  ({ s with parts := s.parts.map TextAssembleAnimation.playPart
            ghostOpacity := "0" },
   (startDelay_inS + duration_inS) * 1000)

/-- The per-part body of the deferred callback in `play()` part [2]:
drop the animation class and hide the part again. -/
def TextAssembleAnimation.settlePart (l : List String) : List String :=
  let l1 := classListRemove l "textAssembleAnimation"
  if "hide" ∉ l1 then classListAdd l1 "hide" else l1

/-- The deferred `setTimeout` callback of `play()` part [2]: hide every
part and show the ghost (`opacity = "1"`). -/
def TextAssembleAnimation.settle (s : AnimState) : AnimState :=
  { s with parts := s.parts.map TextAssembleAnimation.settlePart
           ghostOpacity := "1" }

/-- `TextAssembleAnimation.#createCSSTextParts` loop body, collected as
a list of clip regions.  `g` is `Math.sqrt(this.#textCount)` (supplied
by the caller because real square roots are not computable on `ℚ`; for
a perfect-square part count it is the exact integer root).  Per index
`i`: `current = (i % g, Math.floor(i / g))`,
`partSize = (textWidth / g, textHeight / g)`,
`partPos = (current.x * partSize.x, current.y * partSize.y)`. -/
def TextAssembleAnimation.createCSSTextParts (textCount : ℕ) (g : ℚ)
    (textWidth textHeight : ℚ) : List CellRegion :=
  (List.range textCount).map (fun i : ℕ =>
    let current : Vec2 := ⟨jsMod (i : ℚ) g, ((⌊(i : ℚ) / g⌋ : ℤ) : ℚ)⟩
    let partSize : Vec2 := ⟨textWidth / g, textHeight / g⟩
    let partPos : Vec2 :=
      ⟨current.x * partSize.x, current.y * partSize.y⟩
    { pos := partPos, size := partSize })

/-- `TextAssembleAnimation.#createCSSKeyframes`: per part, four
independent draws `rotateX/Y/Z = random(-500, 1000)` and
`deph = random(-5000, 10000)`.  `rnd` is the stream of `Math.random()`
values, consumed four per part in source order. -/
def TextAssembleAnimation.createCSSKeyframes (textCount : ℕ)
    (rnd : ℕ → ℚ) : List CellKeyframe :=
  (List.range textCount).map (fun i =>
    { rotateX := random (-500) 1000 (rnd (4 * i))
      rotateY := random (-500) 1000 (rnd (4 * i + 1))
      rotateZ := random (-500) 1000 (rnd (4 * i + 2))
      deph := random (-5000) 10000 (rnd (4 * i + 3)) })

/-- Search loop of `clampFontSizeSpec_maxHeight` below, measuring the
fit-test height as `max(fontHeight, actualHeight)` as §4.2 of the
specification words it. -/
def clampSpecLoop (m : TextMeasure) (text font : String) (avail : Vec2) :
    ℕ → ℕ → Vec2 → Option (Option String)
  | 0, _, _ => none
  | fuel + 1, cur, next =>
      if next.x < avail.x ∧ next.y < avail.y then
        let cur' := cur + 1
        let newFont := setCSSFontSize font (toString cur' ++ "rem")
        clampSpecLoop m text font avail fuel cur'
          ⟨getTextWidth m text newFont,
           max (getFontHeight m newFont) (getTextHeight m text newFont)⟩
      else
        some (some (toString cur ++ "rem"))

/-- The font-fit solver as the specification §4.2 step 2 words it, for
comparison with the source's `clampFontSizeToScreenPadding`: identical
except that the height used in the fit test — initially and at every
search step — is `max(fontHeight, actualHeight)` of the text instead of
the font height alone. -/
def clampFontSizeSpec_maxHeight (m : TextMeasure) (windowSize : Vec2)
    (text font : String) (minScreenPadding_inPC : ℚ) (fuel : ℕ) :
    Option (Option String) :=
  let windowSize_pvalue := (100 - minScreenPadding_inPC) / 100
  let availableWindowSize : Vec2 :=
    ⟨windowSize.x * windowSize_pvalue, windowSize.y * windowSize_pvalue⟩
  if getTextWidth m text font ≤ availableWindowSize.x ∧
      max (getFontHeight m font) (getTextHeight m text font) ≤
        availableWindowSize.y then
    some (getCSSFontSize font)
  else
    clampSpecLoop m text font availableWindowSize fuel 0 ⟨0, 0⟩

/-- Concrete measurement surface for exercising the search loop: widths
`10·s` and font heights `s` at `s` rem, width `100`/height `10` at the
`10rem` base font, on any text.  Monotone in the font size, as a real
rasterizer is. -/
def measureC1 : TextMeasure where
  width := fun _ f =>
    if getCSSFontSize f = some "10rem" then 100
    else if getCSSFontSize f = some "1rem" then 10
    else if getCSSFontSize f = some "2rem" then 20
    else if getCSSFontSize f = some "3rem" then 30
    else 0
  actualHeight := fun _ _ => 1
  fontHeight := fun f =>
    if getCSSFontSize f = some "10rem" then 10
    else if getCSSFontSize f = some "1rem" then 1
    else if getCSSFontSize f = some "2rem" then 2
    else if getCSSFontSize f = some "3rem" then 3
    else 0

/-- Concrete measurement surface on which the actual glyph box (200) is
taller than the font box (50): text at the `16px` base font is 50 wide,
at `1rem` it is 150 wide. -/
def measureC2 : TextMeasure where
  width := fun _ f =>
    if getCSSFontSize f = some "16px" then 50
    else if getCSSFontSize f = some "1rem" then 150
    else 0
  actualHeight := fun _ _ => 200
  fontHeight := fun _ => 50

/-- Concrete measurement surface with widths `10·s` at `s` rem and `15`
at the `1.5rem` base font (again monotone in the size). -/
def measureC5 : TextMeasure where
  width := fun _ f =>
    if getCSSFontSize f = some "1.5rem" then 15
    else if getCSSFontSize f = some "1rem" then 10
    else if getCSSFontSize f = some "2rem" then 20
    else 0
  actualHeight := fun _ _ => 1
  fontHeight := fun _ => 1

/-- Concrete measurement surface reporting width `0` for every text (as
`measureText` does for the empty string) and font height `50`. -/
def measureC6 : TextMeasure where
  width := fun _ _ => 0
  actualHeight := fun _ _ => 0
  fontHeight := fun _ => 50

/-- Concrete measurement surface with constant positive measurements. -/
def measureC6w : TextMeasure where
  width := fun _ _ => 5
  actualHeight := fun _ _ => 5
  fontHeight := fun _ => 5

/-- Concrete measurement surface with constant measurement `10` on all
axes: any text fits a `1000×1000` viewport at the base font. -/
def measureFit : TextMeasure where
  width := fun _ _ => 10
  actualHeight := fun _ _ => 10
  fontHeight := fun _ => 10

/-- Concrete computed-style oracle for `getHTMLElementFont`: weight
`normal`, the element's current font size, family `serif`. -/
def efontC : String → String := fun sz => "normal " ++ sz ++ " serif"

/-- The invalid-partCount scenario configuration: `partCount = 50` is
not a perfect square. -/
def cfgC3 : AnimConfig :=
  { text := "Jonas", color := "red", cssFontSize := "16px"
    minScreenPadding_inPC := 0, textPartCount := 50
    duration_inS := 10, startDelay_inS := 1 }

/-- The assemble-lifecycle scenario configuration:
`partCount = 49`, `duration = 10`, `startDelay = 1`. -/
def cfgC9 : AnimConfig :=
  { text := "Jonas", color := "red", cssFontSize := "16px"
    minScreenPadding_inPC := 0, textPartCount := 49
    duration_inS := 10, startDelay_inS := 1 }

/-! ## Helper lemmas -/

theorem clampLoop_stop {m : TextMeasure} {t f : String} {avail : Vec2}
    {fuel cur : ℕ} {next : Vec2} (hf : fuel ≠ 0)
    (h : ¬(next.x < avail.x ∧ next.y < avail.y)) :
    clampLoop m t f avail fuel cur next =
      some (some (toString cur ++ "rem")) := by
  cases fuel with
  | zero => exact absurd rfl hf
  | succ n => simp [clampLoop, h]

theorem clampLoop_step {m : TextMeasure} {t f : String} {avail : Vec2}
    {fuel cur : ℕ} {next : Vec2} (hf : fuel ≠ 0)
    (h : next.x < avail.x ∧ next.y < avail.y) :
    clampLoop m t f avail fuel cur next =
      clampLoop m t f avail (fuel - 1) (cur + 1)
        ⟨getTextWidth m t (setCSSFontSize f (toString (cur + 1) ++ "rem")),
         getFontHeight m (setCSSFontSize f (toString (cur + 1) ++ "rem"))⟩ := by
  cases fuel with
  | zero => exact absurd rfl hf
  | succ n => simp [clampLoop, h]

theorem clampSpecLoop_stop {m : TextMeasure} {t f : String} {avail : Vec2}
    {fuel cur : ℕ} {next : Vec2} (hf : fuel ≠ 0)
    (h : ¬(next.x < avail.x ∧ next.y < avail.y)) :
    clampSpecLoop m t f avail fuel cur next =
      some (some (toString cur ++ "rem")) := by
  cases fuel with
  | zero => exact absurd rfl hf
  | succ n => simp [clampSpecLoop, h]

theorem clampSpecLoop_step {m : TextMeasure} {t f : String} {avail : Vec2}
    {fuel cur : ℕ} {next : Vec2} (hf : fuel ≠ 0)
    (h : next.x < avail.x ∧ next.y < avail.y) :
    clampSpecLoop m t f avail fuel cur next =
      clampSpecLoop m t f avail (fuel - 1) (cur + 1)
        ⟨getTextWidth m t (setCSSFontSize f (toString (cur + 1) ++ "rem")),
         max (getFontHeight m (setCSSFontSize f (toString (cur + 1) ++ "rem")))
           (getTextHeight m t (setCSSFontSize f (toString (cur + 1) ++ "rem")))⟩ := by
  cases fuel with
  | zero => exact absurd rfl hf
  | succ n => simp [clampSpecLoop, h]

theorem clamp_eval_fit {m : TextMeasure} {vw : Vec2} {text font : String}
    {pad : ℚ} (fuel : ℕ)
    (h : getTextWidth m text font ≤ vw.x * ((100 - pad) / 100) ∧
      getFontHeight m font ≤ vw.y * ((100 - pad) / 100)) :
    clampFontSizeToScreenPadding m vw text font pad fuel =
      some (getCSSFontSize font) := by
  simp only [clampFontSizeToScreenPadding]
  rw [if_pos]
  exact h

theorem clamp_eval_nofit {m : TextMeasure} {vw : Vec2} {text font : String}
    {pad : ℚ} (fuel : ℕ)
    (h : ¬(getTextWidth m text font ≤ vw.x * ((100 - pad) / 100) ∧
      getFontHeight m font ≤ vw.y * ((100 - pad) / 100))) :
    clampFontSizeToScreenPadding m vw text font pad fuel =
      clampLoop m text font
        ⟨vw.x * ((100 - pad) / 100), vw.y * ((100 - pad) / 100)⟩
        fuel 0 ⟨0, 0⟩ := by
  simp only [clampFontSizeToScreenPadding]
  rw [if_neg]
  exact h

theorem cmpCSSFont_self (m : TextMeasure) (a : String) :
    cmpCSSFont m a a = 0 := by
  simp [cmpCSSFont]

theorem resize_eval_noChange {m : TextMeasure} {vw : Vec2}
    {efont : String → String} {cfg : AnimConfig} {fuel : ℕ}
    (js : Option String)
    (hclamp : clampFontSizeToScreenPadding m vw cfg.text
      (efont cfg.cssFontSize) cfg.minScreenPadding_inPC fuel = some js)
    (hcmp : cmpCSSFont m (efont cfg.cssFontSize)
      (setCSSFontSize (efont cfg.cssFontSize) (js.getD "")) = 0)
    (s : AnimState) :
    TextAssembleAnimation.resize m vw efont cfg fuel s =
      some { s with fontSize := some cfg.cssFontSize } := by
  simp only [TextAssembleAnimation.resize, hclamp, hcmp]
  simp

theorem resize_preserves {m : TextMeasure} {vw : Vec2}
    {efont : String → String} {cfg : AnimConfig} {fuel : ℕ}
    {s t : AnimState}
    (h : TextAssembleAnimation.resize m vw efont cfg fuel s = some t) :
    t.parts = s.parts ∧ t.ghostOpacity = s.ghostOpacity := by
  simp only [TextAssembleAnimation.resize] at h
  cases hc : clampFontSizeToScreenPadding m vw cfg.text
      (efont cfg.cssFontSize) cfg.minScreenPadding_inPC fuel with
  | none => rw [hc] at h; exact absurd h (by simp)
  | some js =>
      rw [hc] at h
      by_cases hcmp : cmpCSSFont m (efont cfg.cssFontSize)
          (setCSSFontSize (efont cfg.cssFontSize) (js.getD "")) = 0
      · simp only [hcmp, ne_eq, not_true_eq_false, if_false] at h
        obtain rfl := Option.some.inj h
        exact ⟨rfl, rfl⟩
      · simp only [ne_eq, hcmp, not_false_eq_true, if_true] at h
        obtain rfl := Option.some.inj h
        exact ⟨rfl, rfl⟩

/-! ## Claims -/

/-- C1: off-by-one in the linear search of `clampFontSizeToScreenPadding`.
On a monotone measurement surface where the base `10rem` font does not
fit the `25×1000` available area, sizes `1rem`/`2rem` fit strictly and
`3rem` does not, the function returns `"3rem"` — the first over-sized
size — although `"2rem"` is the last size whose measured width and
height are both strictly below the available area.  The second and third
conjuncts certify that `3rem` fails the strict fit test and `2rem`
passes it, so the claimed "last fitting size" result is violated. -/
theorem c1_clamp_returns_first_oversized_size :
    clampFontSizeToScreenPadding measureC1 ⟨25, 1000⟩ "Jonas"
        "bold 10rem serif" 0 10 = some (some "3rem")
    ∧ ¬(getTextWidth measureC1 "Jonas"
          (setCSSFontSize "bold 10rem serif" "3rem") < 25 * ((100 - 0) / 100) ∧
        getFontHeight measureC1
          (setCSSFontSize "bold 10rem serif" "3rem") < 1000 * ((100 - 0) / 100))
    ∧ (getTextWidth measureC1 "Jonas"
          (setCSSFontSize "bold 10rem serif" "2rem") < 25 * ((100 - 0) / 100) ∧
       getFontHeight measureC1
          (setCSSFontSize "bold 10rem serif" "2rem") < 1000 * ((100 - 0) / 100)) := by
  refine ⟨?_, ?_, ?_, ?_⟩
  · rw [clamp_eval_nofit 10 (by
      rw [show getTextWidth measureC1 "Jonas" "bold 10rem serif" = 100 by decide]
      norm_num)]
    rw [clampLoop_step (by norm_num) (by constructor <;> norm_num),
        show getTextWidth measureC1 "Jonas"
          (setCSSFontSize "bold 10rem serif" (toString (0+1:ℕ) ++ "rem")) = 10 by decide,
        show getFontHeight measureC1
          (setCSSFontSize "bold 10rem serif" (toString (0+1:ℕ) ++ "rem")) = 1 by decide]
    rw [clampLoop_step (by norm_num) (by constructor <;> norm_num),
        show getTextWidth measureC1 "Jonas"
          (setCSSFontSize "bold 10rem serif" (toString (0+1+1:ℕ) ++ "rem")) = 20 by decide,
        show getFontHeight measureC1
          (setCSSFontSize "bold 10rem serif" (toString (0+1+1:ℕ) ++ "rem")) = 2 by decide]
    rw [clampLoop_step (by norm_num) (by constructor <;> norm_num),
        show getTextWidth measureC1 "Jonas"
          (setCSSFontSize "bold 10rem serif" (toString (0+1+1+1:ℕ) ++ "rem")) = 30 by decide,
        show getFontHeight measureC1
          (setCSSFontSize "bold 10rem serif" (toString (0+1+1+1:ℕ) ++ "rem")) = 3 by decide]
    rw [clampLoop_stop (by norm_num) (by norm_num)]
    decide
  · rw [show getTextWidth measureC1 "Jonas"
      (setCSSFontSize "bold 10rem serif" "3rem") = 30 by decide]
    norm_num
  · rw [show getTextWidth measureC1 "Jonas"
      (setCSSFontSize "bold 10rem serif" "2rem") = 20 by decide]
    norm_num
  · rw [show getFontHeight measureC1
      (setCSSFontSize "bold 10rem serif" "2rem") = 2 by decide]
    norm_num

/-- C5: `clampFontSizeToScreenPadding` can upscale.  On a monotone
measurement surface where the base font `bold 1.5rem serif` measures 15
wide against an available width of 12 (so it does not fit), the function
returns `"2rem"` — a size strictly larger than the `1.5rem` base size it
was given — because the search overshoots to the first non-fitting
integer size.  This violates the claimed "returned size ≤ base size". -/
theorem c5_clamp_can_upscale :
    clampFontSizeToScreenPadding measureC5 ⟨12, 1000⟩ "Jonas"
        "bold 1.5rem serif" 0 10 = some (some "2rem")
    ∧ getCSSFontSize "bold 1.5rem serif" = some "1.5rem"
    ∧ (3 / 2 : ℚ) < 2 := by
  refine ⟨?_, by decide, by norm_num⟩
  rw [clamp_eval_nofit 10 (by
    rw [show getTextWidth measureC5 "Jonas" "bold 1.5rem serif" = 15 by decide]
    norm_num)]
  rw [clampLoop_step (by norm_num) (by constructor <;> norm_num),
      show getTextWidth measureC5 "Jonas"
        (setCSSFontSize "bold 1.5rem serif" (toString (0+1:ℕ) ++ "rem")) = 10 by decide,
      show getFontHeight measureC5
        (setCSSFontSize "bold 1.5rem serif" (toString (0+1:ℕ) ++ "rem")) = 1 by decide]
  rw [clampLoop_step (by norm_num) (by constructor <;> norm_num),
      show getTextWidth measureC5 "Jonas"
        (setCSSFontSize "bold 1.5rem serif" (toString (0+1+1:ℕ) ++ "rem")) = 20 by decide,
      show getFontHeight measureC5
        (setCSSFontSize "bold 1.5rem serif" (toString (0+1+1:ℕ) ++ "rem")) = 1 by decide]
  rw [clampLoop_stop (by norm_num) (by norm_num)]
  decide

theorem clampLoop_actualHeight_irrel
    (w ah ah' : String → String → ℚ) (fh : String → ℚ)
    (t f : String) (avail : Vec2) :
    ∀ (fuel cur : ℕ) (next : Vec2),
      clampLoop ⟨w, ah, fh⟩ t f avail fuel cur next =
        clampLoop ⟨w, ah', fh⟩ t f avail fuel cur next := by
  intro fuel
  induction fuel with
  | zero => intro cur next; rfl
  | succ n ih =>
      intro cur next
      simp only [clampLoop, getTextWidth, getFontHeight]
      by_cases h : next.x < avail.x ∧ next.y < avail.y
      · simp only [if_pos h]
        exact ih _ _
      · simp only [if_neg h]

/-- C2 (counterexample): the fit-test height of
`clampFontSizeToScreenPadding` is not `max(fontHeight, actualHeight)`.
On a surface whose actual glyph box (200) exceeds the font box (50), the
source function accepts the base font against a `100×100` available
area (height test `50 ≤ 100`) and returns the base size `"16px"`, while
the solver written with the claimed `max` height policy
(`clampFontSizeSpec_maxHeight`) rejects it (`max 50 200 = 200 > 100`)
and searches down to `"1rem"`. -/
theorem c2_height_policy_counterexample :
    clampFontSizeToScreenPadding measureC2 ⟨100, 100⟩ "Jonas"
        "bold 16px serif" 0 10 = some (some "16px")
    ∧ clampFontSizeSpec_maxHeight measureC2 ⟨100, 100⟩ "Jonas"
        "bold 16px serif" 0 10 = some (some "1rem")
    ∧ clampFontSizeToScreenPadding measureC2 ⟨100, 100⟩ "Jonas"
        "bold 16px serif" 0 10 ≠
      clampFontSizeSpec_maxHeight measureC2 ⟨100, 100⟩ "Jonas"
        "bold 16px serif" 0 10 := by
  have h1 : clampFontSizeToScreenPadding measureC2 ⟨100, 100⟩ "Jonas"
      "bold 16px serif" 0 10 = some (some "16px") := by
    rw [clamp_eval_fit 10 (by
      rw [show getTextWidth measureC2 "Jonas" "bold 16px serif" = 50 by decide,
          show getFontHeight measureC2 "bold 16px serif" = 50 by decide]
      constructor <;> norm_num)]
    decide
  have h2 : clampFontSizeSpec_maxHeight measureC2 ⟨100, 100⟩ "Jonas"
      "bold 16px serif" 0 10 = some (some "1rem") := by
    simp only [clampFontSizeSpec_maxHeight]
    rw [if_neg (by
      rw [show getTextWidth measureC2 "Jonas" "bold 16px serif" = 50 by decide,
          show getFontHeight measureC2 "bold 16px serif" = 50 by decide,
          show getTextHeight measureC2 "Jonas" "bold 16px serif" = 200 by decide]
      norm_num)]
    rw [clampSpecLoop_step (by norm_num) (by constructor <;> norm_num),
        show getTextWidth measureC2 "Jonas"
          (setCSSFontSize "bold 16px serif" (toString (0+1:ℕ) ++ "rem")) = 150 by decide,
        show getFontHeight measureC2
          (setCSSFontSize "bold 16px serif" (toString (0+1:ℕ) ++ "rem")) = 50 by decide,
        show getTextHeight measureC2 "Jonas"
          (setCSSFontSize "bold 16px serif" (toString (0+1:ℕ) ++ "rem")) = 200 by decide]
    rw [clampSpecLoop_stop (by norm_num) (by norm_num)]
    decide
  exact ⟨h1, h2, by rw [h1, h2]; decide⟩

/-- C2 (amended): the fit test of `clampFontSizeToScreenPadding` uses
the font-intrinsic height (`getFontHeight`) alone, initially and at
every search step: its result is invariant under arbitrary changes to
the glyph-specific actual-height measurement (`actualBoundingBox`),
which it never consults. -/
theorem c2_fit_test_ignores_actualHeight
    (w ah ah' : String → String → ℚ) (fh : String → ℚ) (vw : Vec2)
    (t f : String) (pad : ℚ) (fuel : ℕ) :
    clampFontSizeToScreenPadding ⟨w, ah, fh⟩ vw t f pad fuel =
      clampFontSizeToScreenPadding ⟨w, ah', fh⟩ vw t f pad fuel := by
  simp only [clampFontSizeToScreenPadding, getTextWidth, getFontHeight]
  by_cases h : w t f ≤ vw.x * ((100 - pad) / 100) ∧
      fh f ≤ vw.y * ((100 - pad) / 100)
  · simp only [if_pos h]
  · simp only [if_neg h]
    exact clampLoop_actualHeight_irrel w ah ah' fh t f _ fuel 0 ⟨0, 0⟩

/-- C6 (counterexample): with a degenerate available area
(`availableWindowSize.x = 0`) but a zero-width measurement (as
`measureText` reports for the empty string), the initial non-strict fit
check `0 ≤ 0 ∧ 50 ≤ 200` passes and
`clampFontSizeToScreenPadding` returns the base size `"16px"`, not the
claimed minimal fallback size `0`/`1` in the step unit. -/
theorem c6_degenerate_area_counterexample :
    (0 : ℚ) * ((100 - 0) / 100) ≤ 0
    ∧ clampFontSizeToScreenPadding measureC6 ⟨0, 200⟩ ""
        "normal 16px serif" 0 5 = some (some "16px")
    ∧ (some "16px" : Option String) ≠ some "0rem"
    ∧ (some "16px" : Option String) ≠ some "1rem" := by
  refine ⟨by norm_num, ?_, by decide, by decide⟩
  rw [clamp_eval_fit 5 (by
    rw [show getTextWidth measureC6 "" "normal 16px serif" = 0 by decide,
        show getFontHeight measureC6 "normal 16px serif" = 50 by decide]
    constructor <;> norm_num)]
  decide

/-- C6 (amended): whenever the available area is zero or negative on
either axis, `clampFontSizeToScreenPadding` terminates — one unit of
loop fuel suffices, the search loop exits on its first test — and
returns `"0rem"`, except in the corner where the base measurement still
passes the non-strict fit check (possible only with zero-sized
measurements against a zero axis), in which case the base font size is
returned unchanged. -/
theorem c6_degenerate_area_terminates (m : TextMeasure) (vw : Vec2)
    (text font : String) (pad : ℚ) (fuel : ℕ) (hf : 1 ≤ fuel)
    (hdeg : vw.x * ((100 - pad) / 100) ≤ 0 ∨
      vw.y * ((100 - pad) / 100) ≤ 0) :
    clampFontSizeToScreenPadding m vw text font pad fuel =
      some (if getTextWidth m text font ≤ vw.x * ((100 - pad) / 100) ∧
          getFontHeight m font ≤ vw.y * ((100 - pad) / 100) then
        getCSSFontSize font
      else some "0rem") := by
  by_cases hfit : getTextWidth m text font ≤ vw.x * ((100 - pad) / 100) ∧
      getFontHeight m font ≤ vw.y * ((100 - pad) / 100)
  · rw [clamp_eval_fit fuel hfit, if_pos hfit]
  · rw [clamp_eval_nofit fuel hfit, if_neg hfit]
    rw [clampLoop_stop (by omega) (by
      rintro ⟨h1, h2⟩
      simp only at h1 h2
      rcases hdeg with hd | hd
      · exact absurd (lt_of_lt_of_le h1 hd) (lt_irrefl 0)
      · exact absurd (lt_of_lt_of_le h2 hd) (lt_irrefl 0))]
    decide

/-- C6 (witness): the amended theorem applied to a concrete degenerate
viewport `0×0` with positive constant measurements. -/
theorem c6_degenerate_area_terminates_witness :
    clampFontSizeToScreenPadding measureC6w ⟨0, 0⟩ "Jonas" "a b" 0 1 =
      some (if getTextWidth measureC6w "Jonas" "a b" ≤ 0 * ((100 - 0) / 100) ∧
          getFontHeight measureC6w "a b" ≤ 0 * ((100 - 0) / 100) then
        getCSSFontSize "a b"
      else some "0rem") :=
  c6_degenerate_area_terminates measureC6w ⟨0, 0⟩ "Jonas" "a b" 0 1
    (le_refl 1) (Or.inl (by norm_num))

theorem resize_fontSize_independent (m : TextMeasure) (vw : Vec2)
    (efont : String → String) (cfg : AnimConfig) (fuel : ℕ)
    (p : List (List String)) (g : String) (f1 f2 : Option String) :
    TextAssembleAnimation.resize m vw efont cfg fuel ⟨p, g, f1⟩ =
      TextAssembleAnimation.resize m vw efont cfg fuel ⟨p, g, f2⟩ := rfl

/-- C7: re-evaluating the fit accumulates no drift.  `#resize` first
resets the container font size to the configured original and solves
the fit from there (the search restarting from size 1 inside
`clampFontSizeToScreenPadding`), so its result never depends on the
previously applied font size: a second `#resize` — with the same
measurement surface, viewport, computed-style oracle and configuration —
on the state produced by a first one returns that state unchanged. -/
theorem c7_resize_idempotent (m : TextMeasure) (vw : Vec2)
    (efont : String → String) (cfg : AnimConfig) (fuel : ℕ)
    (s t : AnimState)
    (h : TextAssembleAnimation.resize m vw efont cfg fuel s = some t) :
    TextAssembleAnimation.resize m vw efont cfg fuel t = some t := by
  have hst : TextAssembleAnimation.resize m vw efont cfg fuel t =
      TextAssembleAnimation.resize m vw efont cfg fuel s := by
    obtain ⟨hp, hg⟩ := resize_preserves h
    obtain ⟨sp, sg, sf⟩ := s
    obtain ⟨tp, tg, tf⟩ := t
    simp only at hp hg
    subst hp
    subst hg
    exact resize_fontSize_independent m vw efont cfg fuel _ _ tf sf
  rw [hst, h]

/-- C7 (witness): a concrete `#resize` run — constant measurements `10`
against a `1000×1000` viewport, so the fit check passes and the original
`16px` size is kept — reaches a fixed point in one step. -/
theorem c7_resize_idempotent_witness :
    TextAssembleAnimation.resize measureFit ⟨1000, 1000⟩ efontC cfgC9 5
      ⟨[], "1", some "16px"⟩ = some ⟨[], "1", some "16px"⟩ :=
  c7_resize_idempotent measureFit ⟨1000, 1000⟩ efontC cfgC9 5
    ⟨[], "1", none⟩ ⟨[], "1", some "16px"⟩ (by
      rw [resize_eval_noChange (some "16px")
        (by
          rw [clamp_eval_fit 5 (by
            rw [show getTextWidth measureFit cfgC9.text (efontC cfgC9.cssFontSize) = 10 by decide,
                show getFontHeight measureFit (efontC cfgC9.cssFontSize) = 10 by decide,
                show cfgC9.minScreenPadding_inPC = 0 from rfl]
            constructor <;> norm_num)]
          decide)
        (by
          rw [show setCSSFontSize (efontC cfgC9.cssFontSize)
            ((some "16px").getD "") = efontC cfgC9.cssFontSize by decide]
          exact cmpCSSFont_self measureFit (efontC cfgC9.cssFontSize))]
      decide)

theorem init_cfgC3_eval :
    TextAssembleAnimation.init measureFit ⟨1000, 1000⟩ efontC cfgC3 5 =
      some ⟨List.replicate 50 ["text", "hide"], "1", some "16px"⟩ := by
  unfold TextAssembleAnimation.init
  rw [resize_eval_noChange (some "16px")
    (by
      rw [clamp_eval_fit 5 (by
        rw [show getTextWidth measureFit cfgC3.text (efontC cfgC3.cssFontSize) = 10 by decide,
            show getFontHeight measureFit (efontC cfgC3.cssFontSize) = 10 by decide,
            show cfgC3.minScreenPadding_inPC = 0 from rfl]
        constructor <;> norm_num)]
      decide)
    (by
      rw [show setCSSFontSize (efontC cfgC3.cssFontSize)
        ((some "16px").getD "") = efontC cfgC3.cssFontSize by decide]
      exact cmpCSSFont_self measureFit (efontC cfgC3.cssFontSize))]
  decide

/-- C3 (counterexample): `TextAssembleAnimation.init` performs no
`partCount` validation and raises no `ConfigurationError`.  For
`partCount = 50` — not a perfect square — `init` completes successfully
and the resulting animation state contains 50 part elements plus the
ghost: DOM elements are created, directly contradicting "fails before
any DOM element is created". -/
theorem c3_init_no_validation_counterexample :
    (∀ k : ℕ, k ≤ 50 → k * k ≠ 50)
    ∧ TextAssembleAnimation.init measureFit ⟨1000, 1000⟩ efontC cfgC3 5 =
        some ⟨List.replicate 50 ["text", "hide"], "1", some "16px"⟩
    ∧ (List.replicate 50 (["text", "hide"] : List String)).length = 50
    ∧ (⟨List.replicate 50 ["text", "hide"], "1", some "16px"⟩ :
        AnimState).ghostOpacity = "1" :=
  ⟨by decide, init_cfgC3_eval, by decide, rfl⟩

/-- C3 (amended): `init` validates nothing.  Whenever it returns (i.e.
the embedded fit search does not run out of fuel), it succeeds for every
`partCount` — perfect square or not, positive or not — and the state it
builds has exactly `partCount.toNat` part elements, every one carrying
the classes `["text", "hide"]`, with the ghost visible (`opacity "1"`);
no error channel exists on this path in the source. -/
theorem c3_init_never_fails (m : TextMeasure) (vw : Vec2)
    (efont : String → String) (cfg : AnimConfig) (fuel : ℕ)
    (st : AnimState)
    (h : TextAssembleAnimation.init m vw efont cfg fuel = some st) :
    st.parts.length = cfg.textPartCount.toNat
    ∧ (∀ l ∈ st.parts, l = ["text", "hide"])
    ∧ st.ghostOpacity = "1" := by
  unfold TextAssembleAnimation.init at h
  obtain ⟨hp, hg⟩ := resize_preserves h
  simp only [TextAssembleAnimation.createHTML] at hp hg
  rw [hp, hg]
  exact ⟨List.length_replicate _ _,
    fun l hl => List.eq_of_mem_replicate hl, rfl⟩

/-- C3 (witness): the amended theorem applied to the concrete
`partCount = 50` run. -/
theorem c3_init_never_fails_witness :
    (⟨List.replicate 50 ["text", "hide"], "1", some "16px"⟩ :
        AnimState).parts.length = cfgC3.textPartCount.toNat
    ∧ (∀ l ∈ (⟨List.replicate 50 ["text", "hide"], "1", some "16px"⟩ :
        AnimState).parts, l = ["text", "hide"])
    ∧ (⟨List.replicate 50 ["text", "hide"], "1", some "16px"⟩ :
        AnimState).ghostOpacity = "1" :=
  c3_init_never_fails measureFit ⟨1000, 1000⟩ efontC cfgC3 5
    ⟨List.replicate 50 ["text", "hide"], "1", some "16px"⟩ init_cfgC3_eval

theorem classListAdd_mem_iff (l : List String) (a c : String) :
    a ∈ classListAdd l c ↔ a ∈ l ∨ a = c := by
  unfold classListAdd
  split_ifs with h
  · constructor
    · exact Or.inl
    · rintro (ha | rfl)
      · exact ha
      · exact h
  · simp

theorem classListRemove_mem_iff (l : List String) (a c : String) :
    a ∈ classListRemove l c ↔ a ∈ l ∧ a ≠ c := by
  simp [classListRemove]

theorem playPart_spec (l : List String) :
    "hide" ∉ TextAssembleAnimation.playPart l ∧
    "textAssembleAnimation" ∈ TextAssembleAnimation.playPart l := by
  simp only [TextAssembleAnimation.playPart]
  have hanim : ∀ l1 : List String,
      "textAssembleAnimation" ∈ classListAdd l1 "textAssembleAnimation" :=
    fun l1 => (classListAdd_mem_iff l1 _ _).mpr (Or.inr rfl)
  by_cases h : "hide" ∈ classListAdd
      (if "textAssembleAnimation" ∈ l then
        classListRemove l "textAssembleAnimation" else l)
      "textAssembleAnimation"
  · simp only [if_pos h]
    constructor
    · rw [classListRemove_mem_iff]
      rintro ⟨-, hne⟩
      exact hne rfl
    · rw [classListRemove_mem_iff]
      exact ⟨hanim _, by decide⟩
  · simp only [if_neg h]
    exact ⟨h, hanim _⟩

theorem settlePart_spec (l : List String) :
    "hide" ∈ TextAssembleAnimation.settlePart l ∧
    "textAssembleAnimation" ∉ TextAssembleAnimation.settlePart l := by
  simp only [TextAssembleAnimation.settlePart]
  have hanim : "textAssembleAnimation" ∉
      classListRemove l "textAssembleAnimation" := by
    rw [classListRemove_mem_iff]
    rintro ⟨-, hne⟩
    exact hne rfl
  by_cases h : "hide" ∉ classListRemove l "textAssembleAnimation"
  · simp only [if_pos h]
    constructor
    · rw [classListAdd_mem_iff]
      exact Or.inr rfl
    · rw [classListAdd_mem_iff]
      rintro (ha | ha)
      · exact hanim ha
      · exact absurd ha (by decide)
  · simp only [if_neg h]
    exact ⟨not_not.mp h, hanim⟩

/-- C9: assemble lifecycle.  For any state produced by `init`,
immediately after `play()` all `partCount` part elements are non-hidden
(no `hide` class, animation class present) and the ghost is hidden
(`opacity "0"`), and the settle callback — scheduled after exactly
`(startDelay + duration) * 1000` milliseconds — hides every part again
and shows the ghost (`opacity "1"`). -/
theorem c9_assemble_lifecycle (m : TextMeasure) (vw : Vec2)
    (efont : String → String) (cfg : AnimConfig) (fuel : ℕ)
    (st : AnimState)
    (h : TextAssembleAnimation.init m vw efont cfg fuel = some st) :
    (TextAssembleAnimation.play cfg.startDelay_inS cfg.duration_inS
        st).1.parts.length = cfg.textPartCount.toNat
    ∧ (∀ l ∈ (TextAssembleAnimation.play cfg.startDelay_inS
        cfg.duration_inS st).1.parts,
        "hide" ∉ l ∧ "textAssembleAnimation" ∈ l)
    ∧ (TextAssembleAnimation.play cfg.startDelay_inS cfg.duration_inS
        st).1.ghostOpacity = "0"
    ∧ (TextAssembleAnimation.play cfg.startDelay_inS cfg.duration_inS
        st).2 = (cfg.startDelay_inS + cfg.duration_inS) * 1000
    ∧ (TextAssembleAnimation.settle (TextAssembleAnimation.play
        cfg.startDelay_inS cfg.duration_inS st).1).parts.length =
        cfg.textPartCount.toNat
    ∧ (∀ l ∈ (TextAssembleAnimation.settle (TextAssembleAnimation.play
        cfg.startDelay_inS cfg.duration_inS st).1).parts,
        "hide" ∈ l ∧ "textAssembleAnimation" ∉ l)
    ∧ (TextAssembleAnimation.settle (TextAssembleAnimation.play
        cfg.startDelay_inS cfg.duration_inS st).1).ghostOpacity = "1" := by
  have hlen : st.parts.length = cfg.textPartCount.toNat := by
    unfold TextAssembleAnimation.init at h
    obtain ⟨hp, -⟩ := resize_preserves h
    simp only [TextAssembleAnimation.createHTML] at hp
    rw [hp]
    exact List.length_replicate _ _
  refine ⟨?_, ?_, rfl, rfl, ?_, ?_, rfl⟩
  · simp only [TextAssembleAnimation.play, List.length_map]
    exact hlen
  · intro l hl
    simp only [TextAssembleAnimation.play, List.mem_map] at hl
    obtain ⟨l', -, rfl⟩ := hl
    exact playPart_spec l'
  · simp only [TextAssembleAnimation.settle, TextAssembleAnimation.play,
      List.length_map]
    exact hlen
  · intro l hl
    simp only [TextAssembleAnimation.settle, TextAssembleAnimation.play,
      List.mem_map] at hl
    obtain ⟨l', -, rfl⟩ := hl
    exact settlePart_spec _

theorem init_cfgC9_eval :
    TextAssembleAnimation.init measureFit ⟨1000, 1000⟩ efontC cfgC9 5 =
      some ⟨List.replicate 49 ["text", "hide"], "1", some "16px"⟩ := by
  unfold TextAssembleAnimation.init
  rw [resize_eval_noChange (some "16px")
    (by
      rw [clamp_eval_fit 5 (by
        rw [show getTextWidth measureFit cfgC9.text (efontC cfgC9.cssFontSize) = 10 by decide,
            show getFontHeight measureFit (efontC cfgC9.cssFontSize) = 10 by decide,
            show cfgC9.minScreenPadding_inPC = 0 from rfl]
        constructor <;> norm_num)]
      decide)
    (by
      rw [show setCSSFontSize (efontC cfgC9.cssFontSize)
        ((some "16px").getD "") = efontC cfgC9.cssFontSize by decide]
      exact cmpCSSFont_self measureFit (efontC cfgC9.cssFontSize))]
  decide

/-- C9 (witness): the lifecycle theorem applied to the concrete
`partCount = 49`, `duration = 10`, `startDelay = 1` scenario run. -/
theorem c9_assemble_lifecycle_witness :
    (TextAssembleAnimation.play cfgC9.startDelay_inS cfgC9.duration_inS
        (⟨List.replicate 49 ["text", "hide"], "1", some "16px"⟩ :
          AnimState)).1.parts.length = cfgC9.textPartCount.toNat
    ∧ (∀ l ∈ (TextAssembleAnimation.play cfgC9.startDelay_inS
        cfgC9.duration_inS (⟨List.replicate 49 ["text", "hide"], "1",
          some "16px"⟩ : AnimState)).1.parts,
        "hide" ∉ l ∧ "textAssembleAnimation" ∈ l)
    ∧ (TextAssembleAnimation.play cfgC9.startDelay_inS cfgC9.duration_inS
        (⟨List.replicate 49 ["text", "hide"], "1", some "16px"⟩ :
          AnimState)).1.ghostOpacity = "0"
    ∧ (TextAssembleAnimation.play cfgC9.startDelay_inS cfgC9.duration_inS
        (⟨List.replicate 49 ["text", "hide"], "1", some "16px"⟩ :
          AnimState)).2 = (cfgC9.startDelay_inS + cfgC9.duration_inS) * 1000
    ∧ (TextAssembleAnimation.settle (TextAssembleAnimation.play
        cfgC9.startDelay_inS cfgC9.duration_inS
        (⟨List.replicate 49 ["text", "hide"], "1", some "16px"⟩ :
          AnimState)).1).parts.length = cfgC9.textPartCount.toNat
    ∧ (∀ l ∈ (TextAssembleAnimation.settle (TextAssembleAnimation.play
        cfgC9.startDelay_inS cfgC9.duration_inS
        (⟨List.replicate 49 ["text", "hide"], "1", some "16px"⟩ :
          AnimState)).1).parts,
        "hide" ∈ l ∧ "textAssembleAnimation" ∉ l)
    ∧ (TextAssembleAnimation.settle (TextAssembleAnimation.play
        cfgC9.startDelay_inS cfgC9.duration_inS
        (⟨List.replicate 49 ["text", "hide"], "1", some "16px"⟩ :
          AnimState)).1).ghostOpacity = "1" :=
  c9_assemble_lifecycle measureFit ⟨1000, 1000⟩ efontC cfgC9 5
    ⟨List.replicate 49 ["text", "hide"], "1", some "16px"⟩ init_cfgC9_eval

theorem random_intCast_mem (lo hi : ℤ) {r : ℚ} (hle : lo ≤ hi)
    (h0 : 0 ≤ r) (h1 : r < 1) :
    lo ≤ random (lo : ℚ) (hi : ℚ) r ∧ random (lo : ℚ) (hi : ℚ) r ≤ hi := by
  simp only [random, Int.ceil_intCast, Int.floor_intCast]
  have hloQ : (lo : ℚ) ≤ (hi : ℚ) := by exact_mod_cast hle
  have hk : (0 : ℚ) < ((hi - lo + 1 : ℤ) : ℚ) := by
    push_cast
    linarith
  have heq : (hi : ℚ) - (lo : ℚ) + 1 = ((hi - lo + 1 : ℤ) : ℚ) := by
    push_cast
    ring
  rw [heq, Int.floor_add_int]
  have h2 : 0 ≤ ⌊r * ((hi - lo + 1 : ℤ) : ℚ)⌋ :=
    Int.floor_nonneg.mpr (by positivity)
  have h3 : ⌊r * ((hi - lo + 1 : ℤ) : ℚ)⌋ < hi - lo + 1 := by
    rw [Int.floor_lt]
    calc r * ((hi - lo + 1 : ℤ) : ℚ) < 1 * ((hi - lo + 1 : ℤ) : ℚ) :=
          mul_lt_mul_of_pos_right h1 hk
      _ = ((hi - lo + 1 : ℤ) : ℚ) := one_mul _
  omega

/-- C8: keyframe start values stay in the configured ranges.  `random`
maps any draw `r ∈ [0, 1)` and integers `min ≤ max` to an integer in
`[min, max]`, and consequently every `CellKeyframe` generated by
`#createCSSKeyframes` has `rotateX/Y/Z ∈ [-500, 1000]` and
`deph ∈ [-5000, 10000]`. -/
theorem c8_keyframe_ranges :
    (∀ (lo hi : ℤ) (r : ℚ), lo ≤ hi → 0 ≤ r → r < 1 →
      lo ≤ random (lo : ℚ) (hi : ℚ) r ∧ random (lo : ℚ) (hi : ℚ) r ≤ hi)
    ∧ (∀ (n : ℕ) (rnd : ℕ → ℚ), (∀ j, 0 ≤ rnd j ∧ rnd j < 1) →
      ∀ kf ∈ TextAssembleAnimation.createCSSKeyframes n rnd,
        (-500 ≤ kf.rotateX ∧ kf.rotateX ≤ 1000) ∧
        (-500 ≤ kf.rotateY ∧ kf.rotateY ≤ 1000) ∧
        (-500 ≤ kf.rotateZ ∧ kf.rotateZ ≤ 1000) ∧
        (-5000 ≤ kf.deph ∧ kf.deph ≤ 10000)) := by
  constructor
  · intro lo hi r hle h0 h1
    exact random_intCast_mem lo hi hle h0 h1
  · intro n rnd hr kf hkf
    have hrot : ∀ j : ℕ, -500 ≤ random (-500) 1000 (rnd j) ∧
        random (-500) 1000 (rnd j) ≤ 1000 := by
      intro j
      have h := random_intCast_mem (-500) 1000 (by decide) (hr j).1 (hr j).2
      push_cast at h
      exact h
    have hdep : ∀ j : ℕ, -5000 ≤ random (-5000) 10000 (rnd j) ∧
        random (-5000) 10000 (rnd j) ≤ 10000 := by
      intro j
      have h := random_intCast_mem (-5000) 10000 (by decide) (hr j).1 (hr j).2
      push_cast at h
      exact h
    simp only [TextAssembleAnimation.createCSSKeyframes,
      List.mem_map] at hkf
    obtain ⟨i, -, rfl⟩ := hkf
    exact ⟨hrot _, hrot _, hrot _, hdep _⟩

/-- C8 (witness): the range theorem applied to a concrete draw and a
concrete two-cell keyframe generation with all draws `1/2`. -/
theorem c8_keyframe_ranges_witness :
    ((-3 : ℤ) ≤ random ((-3 : ℤ) : ℚ) ((7 : ℤ) : ℚ) (1/2) ∧
      random ((-3 : ℤ) : ℚ) ((7 : ℤ) : ℚ) (1/2) ≤ 7)
    ∧ (∀ kf ∈ TextAssembleAnimation.createCSSKeyframes 2 (fun _ => 1/2),
        (-500 ≤ kf.rotateX ∧ kf.rotateX ≤ 1000) ∧
        (-500 ≤ kf.rotateY ∧ kf.rotateY ≤ 1000) ∧
        (-500 ≤ kf.rotateZ ∧ kf.rotateZ ≤ 1000) ∧
        (-5000 ≤ kf.deph ∧ kf.deph ≤ 10000)) :=
  ⟨c8_keyframe_ranges.1 (-3) 7 (1/2) (by decide) (by norm_num) (by norm_num),
   c8_keyframe_ranges.2 2 (fun _ => 1/2)
     (fun _ => ⟨by norm_num, by norm_num⟩)⟩

theorem splitSpaceAux_no_space (s : List Char) :
    ∀ acc : List Char, ' ' ∉ acc →
      ∀ t ∈ splitSpaceAux s acc, ' ' ∉ t := by
  induction s with
  | nil =>
      intro acc hacc t ht
      simp only [splitSpaceAux, List.mem_singleton] at ht
      subst ht
      simpa using hacc
  | cons c cs ih =>
      intro acc hacc t ht
      by_cases hc : c = ' '
      · simp only [splitSpaceAux, if_pos hc, List.mem_cons] at ht
        rcases ht with rfl | ht
        · simpa using hacc
        · exact ih [] (by simp) t ht
      · simp only [splitSpaceAux, if_neg hc] at ht
        refine ih (c :: acc) ?_ t ht
        intro hmem
        rcases List.mem_cons.mp hmem with h | h
        · exact hc h.symm
        · exact hacc h

theorem splitSpace_no_space (s : String) :
    ∀ t ∈ splitSpace s, ' ' ∉ t.data := by
  intro t ht
  simp only [splitSpace, List.mem_map] at ht
  obtain ⟨l, hl, rfl⟩ := ht
  exact splitSpaceAux_no_space s.data [] (by simp) l hl

theorem splitSpaceAux_of_no_space (t : List Char) (hns : ' ' ∉ t) :
    ∀ acc : List Char, splitSpaceAux t acc = [acc.reverse ++ t] := by
  induction t with
  | nil => intro acc; simp [splitSpaceAux]
  | cons c cs ih =>
      intro acc
      have hc : ¬(c = ' ') := fun h => hns (by simp [h])
      have hcs : ' ' ∉ cs := fun h => hns (List.mem_cons_of_mem _ h)
      simp only [splitSpaceAux, if_neg hc]
      rw [ih hcs (c :: acc)]
      simp

theorem splitSpaceAux_append_space (t r : List Char) (hns : ' ' ∉ t) :
    ∀ acc : List Char,
      splitSpaceAux (t ++ ' ' :: r) acc =
        (acc.reverse ++ t) :: splitSpaceAux r [] := by
  induction t with
  | nil => intro acc; simp [splitSpaceAux]
  | cons c cs ih =>
      intro acc
      have hc : ¬(c = ' ') := fun h => hns (by simp [h])
      have hcs : ' ' ∉ cs := fun h => hns (List.mem_cons_of_mem _ h)
      simp only [List.cons_append, splitSpaceAux, if_neg hc]
      rw [show cs.append (' ' :: r) = cs ++ ' ' :: r from rfl,
        ih hcs (c :: acc)]
      simp

theorem splitSpace_joinSpace (toks : List String) (hne : toks ≠ [])
    (hns : ∀ t ∈ toks, ' ' ∉ t.data) :
    splitSpace (joinSpace toks) = toks := by
  induction toks with
  | nil => exact absurd rfl hne
  | cons t rest ih =>
      cases rest with
      | nil =>
          simp only [joinSpace, splitSpace]
          rw [splitSpaceAux_of_no_space t.data (hns t (by simp)) []]
          simp
      | cons t' rest' =>
          have hd : (joinSpace (t :: t' :: rest')).data =
              t.data ++ ' ' :: (joinSpace (t' :: rest')).data := by
            simp [joinSpace, String.data_append]
          simp only [splitSpace, hd]
          rw [splitSpaceAux_append_space t.data _ (hns t (by simp)) []]
          simp only [List.reverse_nil, List.nil_append, List.map_cons]
          congr 1
          exact ih (by simp) (fun u hu => hns u (List.mem_cons_of_mem _ hu))

/-- C10: setting then reading the CSS font size round-trips.  For a font
string with at least two space-separated tokens and a size containing no
space, `getCSSFontSize (setCSSFontSize font size) = size`, and
`setCSSFontSize` rewrites exactly the second token of the split font
(`List.set 1`), leaving the weight and family tokens untouched. -/
theorem c10_font_size_roundtrip (font size : String)
    (hlen : 2 ≤ (splitSpace font).length) (hsz : ' ' ∉ size.data) :
    getCSSFontSize (setCSSFontSize font size) = some size
    ∧ splitSpace (setCSSFontSize font size) =
        (splitSpace font).set 1 size := by
  have hset : splitSpace (setCSSFontSize font size) =
      (splitSpace font).set 1 size := by
    simp only [setCSSFontSize, if_pos hlen]
    refine splitSpace_joinSpace _ ?_ ?_
    · refine List.ne_nil_of_length_pos ?_
      rw [List.length_set]
      omega
    · intro u hu
      rcases List.mem_or_eq_of_mem_set hu with h | rfl
      · exact splitSpace_no_space font u h
      · exact hsz
  refine ⟨?_, hset⟩
  rw [getCSSFontSize, hset, List.getElem?_set_eq_of_lt _ (by omega)]

/-- C10 (witness): the round-trip theorem applied to the concrete font
`"bold 16px serif"` and size `"2rem"`. -/
theorem c10_font_size_roundtrip_witness :
    getCSSFontSize (setCSSFontSize "bold 16px serif" "2rem") = some "2rem"
    ∧ splitSpace (setCSSFontSize "bold 16px serif" "2rem") =
        (splitSpace "bold 16px serif").set 1 "2rem" :=
  c10_font_size_roundtrip "bold 16px serif" "2rem" (by decide) (by decide)

theorem floor_natCast_div (i g : ℕ) :
    ⌊(i : ℚ) / (g : ℚ)⌋ = ((i / g : ℕ) : ℤ) := by
  rw [Rat.floor_natCast_div_natCast]
  exact (Int.natCast_div i g).symm

theorem jsMod_natCast (i g : ℕ) :
    jsMod (i : ℚ) (g : ℚ) = ((i % g : ℕ) : ℚ) := by
  unfold jsMod jsTrunc
  rw [if_neg (not_lt.mpr (by positivity)), floor_natCast_div]
  have hQ : (g : ℚ) * ((i / g : ℕ) : ℚ) + ((i % g : ℕ) : ℚ) = (i : ℚ) := by
    exact_mod_cast congrArg (Nat.cast : ℕ → ℚ) (Nat.div_add_mod i g)
  rw [Int.cast_natCast]
  linarith

theorem axis_cell (g : ℕ) (L x : ℚ) (hg : 0 < g) (hL : 0 < L)
    (h0 : 0 ≤ x) (hx : x < L) :
    ∃! c : ℕ, c < g ∧ (c : ℚ) * (L / g) ≤ x ∧
      x < ((c : ℚ) + 1) * (L / g) := by
  have hgQ : (0 : ℚ) < (g : ℚ) := by exact_mod_cast hg
  have key : ∀ c : ℕ, ((c : ℚ) * (L / g) ≤ x ∧
      x < ((c : ℚ) + 1) * (L / g)) ↔
      ((c : ℚ) ≤ x * g / L ∧ x * g / L < (c : ℚ) + 1) := by
    intro c
    have e1 : (c : ℚ) * (L / g) ≤ x ↔ (c : ℚ) ≤ x * g / L := by
      rw [← mul_div_assoc, div_le_iff₀ hgQ, le_div_iff₀ hL]
    have e2 : x < ((c : ℚ) + 1) * (L / g) ↔ x * g / L < (c : ℚ) + 1 := by
      rw [← mul_div_assoc, lt_div_iff₀ hgQ, div_lt_iff₀ hL]
    rw [e1, e2]
  have hu0 : 0 ≤ x * g / L := div_nonneg (mul_nonneg h0 hgQ.le) hL.le
  have hug : x * g / L < g := by
    rw [div_lt_iff₀ hL]
    calc x * g < L * g := mul_lt_mul_of_pos_right hx hgQ
      _ = (g : ℚ) * L := mul_comm _ _
  have hfl0 : 0 ≤ ⌊x * g / L⌋ := Int.floor_nonneg.mpr hu0
  refine ⟨⌊x * g / L⌋.toNat, ⟨?_, ?_⟩, ?_⟩
  · have : ⌊x * g / L⌋ < (g : ℤ) := Int.floor_lt.mpr (by exact_mod_cast hug)
    omega
  · rw [key]
    have hcast : ((⌊x * g / L⌋.toNat : ℕ) : ℚ) = ((⌊x * g / L⌋ : ℤ) : ℚ) := by
      exact_mod_cast Int.toNat_of_nonneg hfl0
    rw [hcast]
    exact ⟨Int.floor_le _, Int.lt_floor_add_one _⟩
  · intro c' hc'
    rw [key] at hc'
    obtain ⟨-, h1, h2⟩ := hc'
    have hfc : ⌊x * g / L⌋ = (c' : ℤ) := by
      rw [Int.floor_eq_iff]
      constructor
      · exact_mod_cast h1
      · push_cast
        exact h2
    omega

theorem createCSSTextParts_getElem (N g : ℕ) (W H : ℚ) (i : ℕ)
    (hi : i < N) :
    (TextAssembleAnimation.createCSSTextParts N (g : ℚ) W H)[i]? =
      some ⟨⟨((i % g : ℕ) : ℚ) * (W / g), ((i / g : ℕ) : ℚ) * (H / g)⟩,
            ⟨W / g, H / g⟩⟩ := by
  simp only [TextAssembleAnimation.createCSSTextParts]
  rw [List.getElem?_map, List.getElem?_range hi]
  simp only [Option.map_some']
  rw [jsMod_natCast i g, floor_natCast_div i g]
  norm_cast

theorem createCSSTextParts_length (N : ℕ) (g W H : ℚ) :
    (TextAssembleAnimation.createCSSTextParts N g W H).length = N := by
  simp [TextAssembleAnimation.createCSSTextParts]

/-- C4: row-major partition formula and exact tiling.  For a perfect
square `N = g·g` and a positive `W×H` text box, the cell at index `i`
generated by `#createCSSTextParts` has position
`((i % g)·(W/g), (i / g)·(H/g))` and size `(W/g, H/g)`; every cell lies
inside the `[0,W)×[0,H)` box, and every point of that box lies in
exactly one cell (half-open cells: no gaps, no overlaps). -/
theorem c4_partition_formula_and_tiling (g N : ℕ) (W H : ℚ)
    (hN : N = g * g) (hg : 0 < g) (hW : 0 < W) (hH : 0 < H) :
    (∀ i : ℕ, i < N →
      (TextAssembleAnimation.createCSSTextParts N (g : ℚ) W H)[i]? =
        some ⟨⟨((i % g : ℕ) : ℚ) * (W / g), ((i / g : ℕ) : ℚ) * (H / g)⟩,
              ⟨W / g, H / g⟩⟩)
    ∧ (∀ r ∈ TextAssembleAnimation.createCSSTextParts N (g : ℚ) W H,
        ∀ x y : ℚ, r.pos.x ≤ x → x < r.pos.x + r.size.x →
          r.pos.y ≤ y → y < r.pos.y + r.size.y →
          0 ≤ x ∧ x < W ∧ 0 ≤ y ∧ y < H)
    ∧ (∀ x y : ℚ, 0 ≤ x → x < W → 0 ≤ y → y < H →
        ∃! i : ℕ, ∃ r : CellRegion,
          (TextAssembleAnimation.createCSSTextParts N (g : ℚ) W H)[i]? =
            some r
          ∧ r.pos.x ≤ x ∧ x < r.pos.x + r.size.x
          ∧ r.pos.y ≤ y ∧ y < r.pos.y + r.size.y) := by
  have hgQ : (0 : ℚ) < (g : ℚ) := by exact_mod_cast hg
  have hWg : (0 : ℚ) ≤ W / g := div_nonneg hW.le hgQ.le
  have hHg : (0 : ℚ) ≤ H / g := div_nonneg hH.le hgQ.le
  have hgW : (g : ℚ) * (W / g) = W := by field_simp
  have hgH : (g : ℚ) * (H / g) = H := by field_simp
  refine ⟨fun i hi => createCSSTextParts_getElem N g W H i hi, ?_, ?_⟩
  · intro r hr x y hx1 hx2 hy1 hy2
    have hr' : ∃ i : ℕ, i < N ∧
        (TextAssembleAnimation.createCSSTextParts N (g : ℚ) W H)[i]? =
          some r := by
      obtain ⟨i, hi, hget⟩ := List.getElem_of_mem hr
      exact ⟨i, by rwa [createCSSTextParts_length] at hi,
        by rw [List.getElem?_eq_getElem hi]; exact congrArg some hget⟩
    obtain ⟨i, hiN, hget⟩ := hr'
    rw [createCSSTextParts_getElem N g W H i hiN] at hget
    obtain rfl := (Option.some.inj hget).symm
    have hcol : ((i % g : ℕ) : ℚ) + 1 ≤ (g : ℚ) := by
      exact_mod_cast Nat.mod_lt i hg
    have hrow : ((i / g : ℕ) : ℚ) + 1 ≤ (g : ℚ) := by
      have : i / g < g := (Nat.div_lt_iff_lt_mul hg).mpr (hN ▸ hiN)
      exact_mod_cast this
    have hposx : (0 : ℚ) ≤ ((i % g : ℕ) : ℚ) * (W / g) :=
      mul_nonneg (by positivity) hWg
    have hposy : (0 : ℚ) ≤ ((i / g : ℕ) : ℚ) * (H / g) :=
      mul_nonneg (by positivity) hHg
    refine ⟨le_trans hposx hx1, ?_, le_trans hposy hy1, ?_⟩
    · have h1 : x < (((i % g : ℕ) : ℚ) + 1) * (W / g) := by
        have := hx2
        simp only at this
        linarith [this, show (((i % g : ℕ) : ℚ) + 1) * (W / g) =
          ((i % g : ℕ) : ℚ) * (W / g) + W / g from by ring]
      calc x < (((i % g : ℕ) : ℚ) + 1) * (W / g) := h1
        _ ≤ (g : ℚ) * (W / g) := mul_le_mul_of_nonneg_right hcol hWg
        _ = W := hgW
    · have h1 : y < (((i / g : ℕ) : ℚ) + 1) * (H / g) := by
        have := hy2
        simp only at this
        linarith [this, show (((i / g : ℕ) : ℚ) + 1) * (H / g) =
          ((i / g : ℕ) : ℚ) * (H / g) + H / g from by ring]
      calc y < (((i / g : ℕ) : ℚ) + 1) * (H / g) := h1
        _ ≤ (g : ℚ) * (H / g) := mul_le_mul_of_nonneg_right hrow hHg
        _ = H := hgH
  · intro x y hx0 hxW hy0 hyH
    obtain ⟨col, ⟨hcolg, hcol1, hcol2⟩, hcolu⟩ :=
      axis_cell g W x hg hW hx0 hxW
    obtain ⟨row, ⟨hrowg, hrow1, hrow2⟩, hrowu⟩ :=
      axis_cell g H y hg hH hy0 hyH
    have hiN : row * g + col < N := by
      rw [hN]
      calc row * g + col < row * g + g := by omega
        _ = (row + 1) * g := by ring
        _ ≤ g * g := Nat.mul_le_mul_right g hrowg
    have hmod : (row * g + col) % g = col := by
      rw [show row * g + col = g * row + col from by ring,
        Nat.mul_add_mod, Nat.mod_eq_of_lt hcolg]
    have hdiv : (row * g + col) / g = row := by
      rw [show row * g + col = g * row + col from by ring,
        Nat.mul_add_div hg, Nat.div_eq_of_lt hcolg, add_zero]
    refine ⟨row * g + col,
      ⟨⟨⟨((col : ℕ) : ℚ) * (W / g), ((row : ℕ) : ℚ) * (H / g)⟩,
        ⟨W / g, H / g⟩⟩, ?_, hcol1, ?_, hrow1, ?_⟩, ?_⟩
    · rw [createCSSTextParts_getElem N g W H _ hiN, hmod, hdiv]
    · show x < ((col : ℕ) : ℚ) * (W / g) + W / g
      linarith [hcol2, show (((col : ℕ) : ℚ) + 1) * (W / g) =
        ((col : ℕ) : ℚ) * (W / g) + W / g from by ring]
    · show y < ((row : ℕ) : ℚ) * (H / g) + H / g
      linarith [hrow2, show (((row : ℕ) : ℚ) + 1) * (H / g) =
        ((row : ℕ) : ℚ) * (H / g) + H / g from by ring]
    · rintro j ⟨r, hr, hb1, hb2, hb3, hb4⟩
      have hjN : j < N := by
        by_contra hge
        push_neg at hge
        rw [List.getElem?_eq_none
          (by rwa [createCSSTextParts_length])] at hr
        exact Option.noConfusion hr
      rw [createCSSTextParts_getElem N g W H j hjN] at hr
      obtain rfl := (Option.some.inj hr).symm
      simp only at hb1 hb2 hb3 hb4
      have hcol' : j % g = col := by
        refine hcolu (j % g) ⟨Nat.mod_lt j hg, hb1, ?_⟩
        linarith [hb2, show (((j % g : ℕ) : ℚ) + 1) * (W / g) =
          ((j % g : ℕ) : ℚ) * (W / g) + W / g from by ring]
      have hrow' : j / g = row := by
        refine hrowu (j / g) ⟨(Nat.div_lt_iff_lt_mul hg).mpr (hN ▸ hjN),
          hb3, ?_⟩
        linarith [hb4, show (((j / g : ℕ) : ℚ) + 1) * (H / g) =
          ((j / g : ℕ) : ℚ) * (H / g) + H / g from by ring]
      rw [← hcol', ← hrow', Nat.mul_comm]
      exact (Nat.div_add_mod j g).symm

/-- C4 (witness): the partition theorem applied to the concrete grid
`g = 2`, `N = 4`, text box `10 × 6`. -/
theorem c4_partition_formula_and_tiling_witness :
    (∀ i : ℕ, i < 4 →
      (TextAssembleAnimation.createCSSTextParts 4 ((2 : ℕ) : ℚ) 10 6)[i]? =
        some ⟨⟨((i % 2 : ℕ) : ℚ) * (10 / 2), ((i / 2 : ℕ) : ℚ) * (6 / 2)⟩,
              ⟨10 / 2, 6 / 2⟩⟩)
    ∧ (∀ r ∈ TextAssembleAnimation.createCSSTextParts 4 ((2 : ℕ) : ℚ) 10 6,
        ∀ x y : ℚ, r.pos.x ≤ x → x < r.pos.x + r.size.x →
          r.pos.y ≤ y → y < r.pos.y + r.size.y →
          0 ≤ x ∧ x < 10 ∧ 0 ≤ y ∧ y < 6)
    ∧ (∀ x y : ℚ, 0 ≤ x → x < 10 → 0 ≤ y → y < 6 →
        ∃! i : ℕ, ∃ r : CellRegion,
          (TextAssembleAnimation.createCSSTextParts 4
            ((2 : ℕ) : ℚ) 10 6)[i]? = some r
          ∧ r.pos.x ≤ x ∧ x < r.pos.x + r.size.x
          ∧ r.pos.y ≤ y ∧ y < r.pos.y + r.size.y) :=
  c4_partition_formula_and_tiling 2 4 10 6 rfl (by decide)
    (by norm_num) (by norm_num)

end core
